import Mathlib

set_option maxRecDepth 8000

/-!
Verification of the axs-api capture-and-price pipeline.

The JavaScript sources (`src/scrape.js`, `src/parse_tickets.js`) are shallowly
embedded below.  JavaScript numbers are modelled as rationals (`ℚ`): every
quantity handled by the pricing code is a small integral amount of cents or a
percentage, and the arithmetic performed on them (`+`, `*`, `/ 100`,
`Math.round`) is exact at these magnitudes.  JavaScript strings are modelled
as `String`, with substring search spelled out on `List Char` exactly as the
engine's `String.prototype.includes` behaves.  JavaScript objects used as
dictionaries are association lists with last-write-wins lookup, mirroring
property assignment; `for … in` iteration follows insertion order, which the
association list preserves.
-/

/-- `Math.round` in JavaScript: round half towards positive infinity. -/
def jsRound (q : ℚ) : ℤ := (q + 1/2).floor

/-- `parseFloat(x.toFixed(2))`: round to two decimal places. -/
def round2 (q : ℚ) : ℚ := (jsRound (q * 100) : ℚ) / 100

/-- `hay.includes(needle)` on JavaScript strings, on the character lists. -/
def jsIncludes (needle : List Char) : List Char → Bool
  | [] => needle.isEmpty
  | c :: t => needle.isPrefixOf (c :: t) || jsIncludes needle t

/-- `hay.includes(needle)` on JavaScript strings. -/
def jsIncludesStr (hay needle : String) : Bool := jsIncludes needle.data hay.data

/-- `s.toLowerCase()` (ASCII-adequate for the tags compared in the source). -/
def jsLower (s : String) : String := ⟨s.data.map Char.toLower⟩

/-- `str.split(sep)` for a one-character separator, e.g. `pattern.split('*')`:
always returns one more piece than there are separator occurrences. -/
def splitOnChar (sep : Char) : List Char → List (List Char)
  | [] => [[]]
  | c :: cs =>
    if c = sep then [] :: splitOnChar sep cs
    else
      match splitOnChar sep cs with
      | [] => [[c]]
      | p :: ps => (c :: p) :: ps

/-- Number of comma-separated items in a string (used to read a `Ticket.seats`
field back as a list). -/
def commaSepCount (s : String) : Nat := (splitOnChar ',' s.data).length

/-- JavaScript object property lookup on an association list built by repeated
`obj[k] = v` assignments: the *last* binding of a key wins. -/
def objGet (l : List (String × α)) (k : String) : Option α :=
  l.foldl (fun acc p => if p.1 = k then some p.2 else acc) none

/-- `parts.join(sep)` on a JavaScript array. -/
def jsJoin (sep : String) : List String → String
  | [] => ""
  | [a] => a
  | a :: rest => a ++ sep ++ jsJoin sep rest

/-! ## PatternMatcher (src/scrape.js, response handler and CDP monitor)

```js
const patternParts = target.pattern.split('*')
const matches = patternParts.every(part => url.includes(part))
```
-/

/-- The endpoint pattern match of `src/scrape.js`: split the wildcard pattern
on `*` and require every literal part to be a substring of the URL. -/
def patternMatches (pattern url : List Char) : Bool :=
  (splitOnChar '*' pattern).all fun part => jsIncludes part url

/-- Modelled from the spec: the *in order* matching the spec describes —
each literal segment must occur after the end of the previous segment's
occurrence.  Greedy leftmost matching, which is complete for this semantics. -/
def stripAfterOcc (p : List Char) : List Char → Option (List Char)
  | [] => if p.isEmpty then some [] else none
  | c :: cs =>
    if p.isPrefixOf (c :: cs) then some ((c :: cs).drop p.length)
    else stripAfterOcc p cs

/-- Modelled from the spec: match the literal segments in order, each as a
substring of what remains of the URL after the previous segment. -/
def inOrderMatches : List (List Char) → List Char → Bool
  | [], _ => true
  | p :: ps, s =>
    match stripAfterOcc p s with
    | some rest => inOrderMatches ps rest
    | none => false

/-! ## SeatGrouper (src/parse_tickets.js, dynamic-pricing variant)

```js
let bestGroup = [];
let currentGroup = [];
for (let i = 0; i < selectedSeats.length; i++) {
  const currentSeat = selectedSeats[i];
  if (currentGroup.length === 0) {
    currentGroup = [currentSeat];
  } else {
    const lastSeat = currentGroup[currentGroup.length - 1];
    if (currentSeat.number === lastSeat.number + 1 && currentGroup.length < 4) {
      currentGroup.push(currentSeat);
    } else {
      if (currentGroup.length >= 2 && currentGroup.length > bestGroup.length) {
        bestGroup = [...currentGroup];
      }
      currentGroup = [currentSeat];
    }
  }
}
if (currentGroup.length >= 2 && currentGroup.length > bestGroup.length) {
  bestGroup = [...currentGroup];
}
```
-/

/-- One-scan search for the best contiguous run, generic in the seat type via
the seat-number projection `num`. -/
def findBestGroupAux (num : α → Nat) (best cur : List α) : List α → List α
  | [] => if 2 ≤ cur.length ∧ best.length < cur.length then cur else best
  | s :: rest =>
    match cur.getLast? with
    | none => findBestGroupAux num best [s] rest
    | some lastSeat =>
      if num s = num lastSeat + 1 ∧ cur.length < 4 then
        findBestGroupAux num best (cur ++ [s]) rest
      else
        let best' := if 2 ≤ cur.length ∧ best.length < cur.length then cur else best
        findBestGroupAux num best' [s] rest

/-- The seat grouper of `parseAXSTickets`: best contiguous run of 2–4 seats. -/
def findBestGroup (num : α → Nat) (seats : List α) : List α :=
  findBestGroupAux num [] [] seats

/-! ## Pricing data model (src/parse_tickets.js, dynamic-pricing variant)

Monetary amounts are in cents; rates are percentages.  An `Option` field
models a JavaScript property that the code guards with a `typeof` check, so
`none` stands for "absent or not a number".  The `price` object's own guards
(`axsResults.price && axsResults.price.fees && …`) only turn an absent object
into empty collections, so absent collections are modelled as empty lists. -/

structure LookupRange where
  start : ℚ
  /-- Source field name `end` (a Lean keyword). -/
  «end» : ℚ
  amount : ℚ
deriving DecidableEq

structure FeeComponent where
  calculationMethod : String
  lookupRanges : List LookupRange
  rate : Option ℚ
  roundOff : Option ℚ
  amount : Option ℚ
  taxIds : List String
deriving DecidableEq

structure Fee where
  id : String
  applicationMethod : String
  components : List FeeComponent
deriving DecidableEq

structure Tax where
  id : String
  rate : ℚ
deriving DecidableEq

structure PriceComponent where
  name : String
  amount : ℚ
  taxIds : List String
deriving DecidableEq

structure PriceEntry where
  base : ℚ
  priceTypeID : Option String
  priceComponents : List PriceComponent
deriving DecidableEq

structure PriceLevel where
  priceLevelID : String
  label : String
  prices : List PriceEntry
deriving DecidableEq

structure ZonePrice where
  priceLevels : List PriceLevel
  rawDynamicPrices : List (String × ℚ)
deriving DecidableEq

structure FeeRef where
  id : String
deriving DecidableEq

structure OfferPrice where
  zonePrices : List ZonePrice
  fees : List FeeRef
deriving DecidableEq

structure PriceData where
  fees : List Fee
  taxes : List Tax
  offerPrices : List OfferPrice
deriving DecidableEq

/-- The lookup-range scan of the fee loop: first range whose
`[start, end)` interval (an `end` of 0 meaning unbounded above) contains the
price in dollars; 0 when no range matches. -/
def lookupAmount : List LookupRange → ℚ → ℚ
  | [], _ => 0
  | r :: rs, priceInDollars =>
    if r.start ≤ priceInDollars ∧ (r.«end» = 0 ∨ priceInDollars < r.«end») then r.amount
    else lookupAmount rs priceInDollars

/-- One fee component's amount, by calculation method (`Lookup`, `Percentage`
with optional `roundOff`, `Fixed`); 0 when no branch applies. -/
def feeComponentAmount (component : FeeComponent) (baseAmountForFeeCalculation : ℚ) : ℚ :=
  let priceInDollars := baseAmountForFeeCalculation / 100
  if component.calculationMethod = "Lookup" then
    lookupAmount component.lookupRanges priceInDollars
  else if component.calculationMethod = "Percentage" then
    match component.rate with
    | some rate =>
      let feeAmount := baseAmountForFeeCalculation * rate / 100
      match component.roundOff with
      | some roundOff => (jsRound (feeAmount / roundOff) : ℚ) * roundOff
      | none => feeAmount
    | none => 0
  else if component.calculationMethod = "Fixed" then
    match component.amount with
    | some amount => amount
    | none => 0
  else 0

structure PriceLevelData where
  priceLevelID : String
  label : String
  basePrice : ℚ
  facilityFee : ℚ
  totalFees : ℚ
  totalTax : ℚ
  websiteDisplayPrice : ℚ
  priceTypeID : Option String
  rawDynamicPrices : List (String × ℚ)
deriving DecidableEq

/-- One step of the price-component loop of `buildPriceLevelsMap`: the
accumulator is `(baseComponentAmount, venFacFeeAmount, currentTaxableAmount)`. -/
def priceComponentStep (acc : ℚ × ℚ × ℚ) (comp : PriceComponent) : ℚ × ℚ × ℚ :=
  let bf :=
    if comp.name = "Base Component" then (comp.amount, acc.2.1)
    else if comp.name = "VEN_FacFee" then (acc.1, comp.amount)
    else (acc.1, acc.2.1)
  (bf.1, bf.2, if "1001" ∈ comp.taxIds then acc.2.2 + comp.amount else acc.2.2)

/-- The price-component loop of `buildPriceLevelsMap`. -/
def priceComponentScan (priceComponents : List PriceComponent) : ℚ × ℚ × ℚ :=
  priceComponents.foldl priceComponentStep (0, 0, 0)

/-- One step of the inner loop over a per-item fee definition's components:
the accumulator is `(totalCalculatedPerItemFees, taxable fee amount)`. -/
def feeComponentsStep (baseAmountForFeeCalculation : ℚ) (acc : ℚ × ℚ)
    (component : FeeComponent) : ℚ × ℚ :=
  let amt := feeComponentAmount component baseAmountForFeeCalculation
  (acc.1 + amt, if "1001" ∈ component.taxIds then acc.2 + amt else acc.2)

/-- One step of the fee loop of `buildPriceLevelsMap`, for one fee reference
assigned to the offer. -/
def feeStep (rootFeeMap : List (String × Fee)) (baseAmountForFeeCalculation : ℚ)
    (acc : ℚ × ℚ) (offerAssignedFee : FeeRef) : ℚ × ℚ :=
  match objGet rootFeeMap offerAssignedFee.id with
  | none => acc
  | some feeDef =>
    if feeDef.applicationMethod = "PerItem" then
      feeDef.components.foldl (feeComponentsStep baseAmountForFeeCalculation) acc
    else acc

/-- The fee loop of `buildPriceLevelsMap`. -/
def feeScan (rootFeeMap : List (String × Fee)) (offerFees : List FeeRef)
    (baseAmountForFeeCalculation : ℚ) : ℚ × ℚ :=
  offerFees.foldl (feeStep rootFeeMap baseAmountForFeeCalculation) (0, 0)

/-- The body of `buildPriceLevelsMap`'s innermost loop for one price level;
`none` when the level has no detailed prices and is skipped. -/
def processPriceLevel (rootFeeMap : List (String × Fee)) (taxMap : List (String × Tax))
    (offerPrice : OfferPrice) (zonePrice : ZonePrice) (priceLevel : PriceLevel) :
    Option PriceLevelData :=
  match priceLevel.prices with
  | [] => none
  | firstPriceEntry :: _ =>
    let baseAmountForFeeCalculation := firstPriceEntry.base
    let scan := priceComponentScan firstPriceEntry.priceComponents
    let fscan := feeScan rootFeeMap offerPrice.fees baseAmountForFeeCalculation
    let currentTaxableAmount := scan.2.2 + fscan.2
    let globalTaxRate :=
      match objGet taxMap "1001" with
      | some letTaxDef => letTaxDef.rate
      | none => 0
    let totalTax := currentTaxableAmount * globalTaxRate / 100
    some {
      priceLevelID := priceLevel.priceLevelID
      label := priceLevel.label
      basePrice := scan.1
      facilityFee := scan.2.1
      totalFees := fscan.1
      totalTax := totalTax
      websiteDisplayPrice := baseAmountForFeeCalculation + fscan.1 + totalTax
      priceTypeID := firstPriceEntry.priceTypeID
      rawDynamicPrices := zonePrice.rawDynamicPrices }

def rootFeeMapOf (price : PriceData) : List (String × Fee) :=
  price.fees.map fun fee => (fee.id, fee)

def taxMapOf (price : PriceData) : List (String × Tax) :=
  price.taxes.map fun tax => (tax.id, tax)

/-- `buildPriceLevelsMap` of the dynamic-pricing variant: insertion-ordered
association list, where a repeated `priceLevelID` is overwritten on lookup
(`objGet` takes the last binding). -/
def buildPriceLevelsMap (price : PriceData) : List (String × PriceLevelData) :=
  let rootFeeMap := rootFeeMapOf price
  let taxMap := taxMapOf price
  (price.offerPrices.map fun offerPrice =>
      (offerPrice.zonePrices.map fun zonePrice =>
          zonePrice.priceLevels.filterMap fun priceLevel =>
            (processPriceLevel rootFeeMap taxMap offerPrice zonePrice priceLevel).map
              fun priceLevelData => (priceLevel.priceLevelID, priceLevelData)).flatten).flatten

/-! ## Dynamic pricing (getDynamicPrice / calculateSeatPricing) -/

structure SeatPricing where
  basePrice : ℚ
  facilityFee : ℚ
  totalFees : ℚ
  totalTax : ℚ
  websiteDisplayPrice : ℚ
  isDynamicPricing : Bool
deriving DecidableEq

/-- The key `priceTypeID-sectionID-rowID-seatId-priceLevelID` of the dynamic
price table. -/
def dynamicPriceKeyOf (priceTypeID sectionID rowID seatId priceLevelID : String) : String :=
  priceTypeID ++ "-" ++ sectionID ++ "-" ++ rowID ++ "-" ++ seatId ++ "-" ++ priceLevelID

/-- `getDynamicPrice`: `null` when `priceTypeID` is absent (the
`!priceLevelData.priceTypeID` guard), otherwise
`rawDynamicPrices[key] || null` — note that a stored price of 0 is falsy in
JavaScript, so `0 || null` is `null` and a zero-valued override is treated as
absent. -/
def getDynamicPrice (priceLevelData : PriceLevelData) (sectionID rowID seatId : String) :
    Option ℚ :=
  match priceLevelData.priceTypeID with
  | none => none
  | some priceTypeID =>
    let dynamicPriceKey :=
      dynamicPriceKeyOf priceTypeID sectionID rowID seatId priceLevelData.priceLevelID
    match objGet priceLevelData.rawDynamicPrices dynamicPriceKey with
    | some v => if v = 0 then none else some v
    | none => none

/-- `calculateSeatPricing`: per-seat pricing, replacing the base-plus-facility
amount by a dynamic price when one is found, with fees and tax taken from the
price level's precomputed totals. -/
def calculateSeatPricing (priceLevelData : PriceLevelData) (sectionID rowID seatId : String) :
    SeatPricing :=
  let dynamicPrice := getDynamicPrice priceLevelData sectionID rowID seatId
  let venFacFeeAmount := priceLevelData.facilityFee
  let bases : ℚ × ℚ :=
    match dynamicPrice with
    | some d => (d, d - venFacFeeAmount)
    | none => (priceLevelData.basePrice + priceLevelData.facilityFee, priceLevelData.basePrice)
  { basePrice := bases.2
    facilityFee := venFacFeeAmount
    totalFees := priceLevelData.totalFees
    totalTax := priceLevelData.totalTax
    websiteDisplayPrice := bases.1 + priceLevelData.totalFees + priceLevelData.totalTax
    isDynamicPricing := dynamicPrice.isSome }

/-! ## parseAXSTickets (src/parse_tickets.js, dynamic-pricing variant) -/

structure Item where
  sectionID : String
  sectionLabel : String
  rowID : String
  rowLabel : String
  priceLevelID : String
  /-- `parseInt(item.number)`, assumed to parse (seat numbers are numeric). -/
  number : Nat
  displayOrder : Nat
  id : String
  statusCodeLabel : Option String
  attributes : List String
  seatType : Option String
deriving DecidableEq

structure Offer where
  offerID : String
  offerType : Option String
  items : List Item
deriving DecidableEq

structure OfferSearch where
  offers : List Offer
deriving DecidableEq

structure SectionData where
  connectionFee : Option ℚ
deriving DecidableEq

structure AxsResults where
  sections : List (String × SectionData)
  offerSearch : Option OfferSearch
  price : PriceData
deriving DecidableEq

/-- The item filters of the first pass: skip "accessible" status, any
restricted/accessible attribute, and FlashSeats seat types. -/
def itemExcluded (item : Item) : Bool :=
  (match item.statusCodeLabel with
   | some s => jsLower s = "accessible"
   | none => false)
  || item.attributes.any (fun attr =>
       jsIncludesStr (jsLower attr) "restricted" || jsIncludesStr (jsLower attr) "accessible")
  || (match item.seatType with
      | some st => jsIncludesStr (jsLower st) "flashseats"
      | none => false)

structure SeatInfo where
  number : Nat
  displayOrder : Nat
  seatId : String
  offerId : String
  priceLevelId : String
deriving DecidableEq

structure RowGroup where
  sectionLabel : String
  sectionID : String
  rowLabel : String
  rowID : String
  seats : List SeatInfo
deriving DecidableEq

def seatInfoOf (item : Item) (offerId : String) : SeatInfo :=
  { number := item.number
    displayOrder := item.displayOrder
    seatId := item.id
    offerId := offerId
    priceLevelId := item.priceLevelID }

/-- `sectionRowPriceSeats[key]` upsert: create the group on first sight of a
key (metadata from that first item), then push the seat. -/
def pushSeat (key : String) (item : Item) (offerId : String) :
    List (String × RowGroup) → List (String × RowGroup)
  | [] =>
    [(key, { sectionLabel := item.sectionLabel, sectionID := item.sectionID,
             rowLabel := item.rowLabel, rowID := item.rowID,
             seats := [seatInfoOf item offerId] })]
  | (k, g) :: rest =>
    if k = key then (k, { g with seats := g.seats ++ [seatInfoOf item offerId] }) :: rest
    else (k, g) :: pushSeat key item offerId rest

/-- First pass of `parseAXSTickets`: group the kept seats by
`sectionID-rowLabel`, skipping `FLASHSEATS` offers and excluded items. -/
def collectSeats (offers : List Offer) : List (String × RowGroup) :=
  offers.foldl
    (fun m offer =>
      if offer.offerType = some "FLASHSEATS" then m
      else
        offer.items.foldl
          (fun m item =>
            if itemExcluded item then m
            else pushSeat (item.sectionID ++ "-" ++ item.rowLabel) item offer.offerID m)
          m)
    []

/-- `seatsByPriceLevel` upsert within one section-row. -/
def pushByLevel (seat : SeatInfo) :
    List (String × List SeatInfo) → List (String × List SeatInfo)
  | [] => [(seat.priceLevelId, [seat])]
  | (k, ss) :: rest =>
    if k = seat.priceLevelId then (k, ss ++ [seat]) :: rest
    else (k, ss) :: pushByLevel seat rest

def seatsByPriceLevelOf (seats : List SeatInfo) : List (String × List SeatInfo) :=
  seats.foldl (fun m seat => pushByLevel seat m) []

/-- Mean computed display price over a price level's seats in this
section-row, in dollars (dynamic pricing taken into account). -/
def averagePriceOf (priceLevelData : PriceLevelData) (g : RowGroup)
    (seats : List SeatInfo) : ℚ :=
  (seats.map fun seat =>
      (calculateSeatPricing priceLevelData g.sectionID g.rowID seat.seatId).websiteDisplayPrice).sum
    / (seats.length : ℚ) / 100

/-- One step of the price-level selection loop, for one
`(priceLevelId, seats)` group of the section-row: prefer more seats, then
(on an equal count) a strictly lower average price; levels without price
data are skipped.  The JavaScript initial state (`null`, 0, `Infinity`) is
`none`: the first level with data always replaces it, because
`seats.length > 0` or (`seats.length === 0` and `averagePrice < Infinity`). -/
def selectStep (plMap : List (String × PriceLevelData)) (g : RowGroup)
    (best : Option (String × Nat × ℚ)) (p : String × List SeatInfo) :
    Option (String × Nat × ℚ) :=
  match objGet plMap p.1 with
  | none => best
  | some priceLevelData =>
    let averagePrice := averagePriceOf priceLevelData g p.2
    match best with
    | none => some (p.1, p.2.length, averagePrice)
    | some (bestId, maxSeats, lowestPrice) =>
      if maxSeats < p.2.length ∨ (p.2.length = maxSeats ∧ averagePrice < lowestPrice) then
        some (p.1, p.2.length, averagePrice)
      else some (bestId, maxSeats, lowestPrice)

def selectBestLevel (plMap : List (String × PriceLevelData)) (g : RowGroup)
    (byLevel : List (String × List SeatInfo)) : Option (String × Nat × ℚ) :=
  byLevel.foldl (selectStep plMap g) none

structure Ticket where
  «section» : String
  row : String
  seats : String
  quantity : Nat
  face_price : ℚ
  taxed_cost : ℚ
  cost : ℚ
  isDynamicPricing : Bool
  connection_fee : ℚ
deriving DecidableEq

/-- `axsResults.sections[sectionLabel].connectionFee`, defaulting to 0 when
the section entry or a numeric fee is absent. -/
def connectionFeeOf (sections : List (String × SectionData)) (sectionLabel : String) : ℚ :=
  match objGet sections sectionLabel with
  | some sectionData =>
    match sectionData.connectionFee with
    | some c => c
    | none => 0
  | none => 0

/-- `selectedSeats.sort((a, b) => a.number - b.number)`: a stable sort by
seat number (insertion sort, extensionally equal to the engine's stable
sort). -/
def sortSeats (seats : List SeatInfo) : List SeatInfo :=
  seats.insertionSort (fun a b => a.number ≤ b.number)

/-- Second pass of `parseAXSTickets` for one section-row group: pick the best
price level, run the seat grouper over its sorted seats, and emit a ticket
when a group of 2–4 consecutive seats exists. -/
def processSectionRow (sections : List (String × SectionData))
    (plMap : List (String × PriceLevelData)) (g : RowGroup) : Option Ticket :=
  let seatsByPriceLevel := seatsByPriceLevelOf g.seats
  match selectBestLevel plMap g seatsByPriceLevel with
  | none => none
  | some (bestPriceLevelId, _, _) =>
    match objGet seatsByPriceLevel bestPriceLevelId, objGet plMap bestPriceLevelId with
    | some selectedSeats, some priceLevelData =>
      let bestGroup := findBestGroup (fun s => s.number) (sortSeats selectedSeats)
      match bestGroup.head? with
      | none => none
      | some firstSeat =>
        if 2 ≤ bestGroup.length then
          let seatPricing :=
            calculateSeatPricing priceLevelData g.sectionID g.rowID firstSeat.seatId
          let connectionFee := connectionFeeOf sections g.sectionLabel
          let face_price := round2 ((seatPricing.basePrice + seatPricing.facilityFee) / 100)
          let taxed_cost := round2 ((seatPricing.totalFees + seatPricing.totalTax) / 100)
          let connection_fee_dollars := round2 (connectionFee / 100)
          let cost := round2 (face_price + taxed_cost + connection_fee_dollars)
          some {
            «section» := g.sectionLabel
            row := g.rowLabel
            seats := jsJoin "," (bestGroup.map fun s => toString s.number)
            quantity := bestGroup.length
            face_price := face_price
            taxed_cost := taxed_cost
            cost := cost
            isDynamicPricing := seatPricing.isDynamicPricing
            connection_fee := connection_fee_dollars }
        else none
    | _, _ => none

/-- `parseAXSTickets` of the dynamic-pricing variant (the module
`src/scrape.js` imports). -/
def parseAXSTickets (axsResults : AxsResults) : List Ticket :=
  match axsResults.offerSearch with
  | none => []
  | some offerSearch =>
    let priceLevelsMap := buildPriceLevelsMap axsResults.price
    let sectionRowPriceSeats := collectSeats offerSearch.offers
    sectionRowPriceSeats.filterMap fun p =>
      processSectionRow axsResults.sections priceLevelsMap p.2

/-! ## CaptchaGate (src/scrape.js, the captcha retry loop)

```js
let captchaRetries = 0;
const maxCaptchaRetries = 3;
while (captchaRetries < maxCaptchaRetries) {
  try {
    await Promise.race([...]);
    break;                      // solved
  } catch (captchaError) {
    captchaRetries++;
    if (captchaRetries >= maxCaptchaRetries) {
      throw new CaptchaTimeoutError(...);
    }
    try {
      const blockingModal = await page.$('.modal-header h1#title');
      if (blockingModal) {
        const modalText = await page.evaluate(el => el.textContent, blockingModal);
        if (modalText.includes('Oh no!')) {
          throw new ScraperBlockedError("Scraper has been blocked by AXS");
        }
      }
    } catch (modalError) {
      console.log("Error checking for blocking modal:", modalError.message);
    }
    await page.reload(...);
  }
}
```
-/

inductive ScrapeOutcome
  | solved
  | captchaTimeout
  | blocked
deriving DecidableEq

/-- The blocking-modal inspection: the `Oh no!` modal makes it throw
`ScraperBlockedError`. -/
def modalCheck (blockedVisible : Bool) : Except ScrapeOutcome Unit :=
  if blockedVisible then Except.error ScrapeOutcome.blocked else Except.ok ()

/-- The `try { … } catch (modalError) { console.log(…) }` wrapper around the
modal inspection: every exception of the `try` block — including the
`ScraperBlockedError` thrown inside it — is caught by `catch (modalError)`
and only logged. -/
def modalCheckCaught (blockedVisible : Bool) : Unit :=
  match modalCheck blockedVisible with
  | Except.error _ => ()
  | Except.ok _ => ()

/-- The retry loop, structurally recursive on the remaining iterations of the
`while (captchaRetries < 3)` guard.  `solves i` is whether the race of
attempt `i` (0-based) resolves before its timeout; `blockedAt r` is whether
the blocking modal is visible when inspected after the `r`-th failure. -/
def captchaLoopGo (solves blockedAt : Nat → Bool) (captchaRetries : Nat) :
    Nat → ScrapeOutcome
  | 0 => ScrapeOutcome.solved
  | fuel + 1 =>
    if solves captchaRetries then ScrapeOutcome.solved
    else
      let retries' := captchaRetries + 1
      if 3 ≤ retries' then ScrapeOutcome.captchaTimeout
      else
        let _ := modalCheckCaught (blockedAt retries')
        captchaLoopGo solves blockedAt retries' fuel

/-- The captcha gate of `scrapeAxsTickets`: the loop starts with
`captchaRetries = 0` and at most 3 iterations. -/
def captchaLoop (solves blockedAt : Nat → Bool) : ScrapeOutcome :=
  captchaLoopGo solves blockedAt 0 3

/-! ## Helper lemmas: rounding -/

theorem jsRound_eq_floor (q : ℚ) : jsRound q = ⌊q + 1/2⌋ := by
  rw [jsRound, Rat.floor_def', Rat.floor_def]

theorem abs_jsRound_sub_le (q : ℚ) : |(jsRound q : ℚ) - q| ≤ 1/2 := by
  rw [jsRound_eq_floor]
  have h1 : ((⌊q + 1/2⌋ : ℤ) : ℚ) ≤ q + 1/2 := Int.floor_le _
  have h2 : q + 1/2 - 1 < ((⌊q + 1/2⌋ : ℤ) : ℚ) := Int.sub_one_lt_floor _
  rw [abs_le]
  constructor <;> linarith

theorem jsRound_intCast (n : ℤ) : jsRound (n : ℚ) = n := by
  rw [jsRound_eq_floor, Int.floor_int_add]
  norm_num

theorem round2_of_hundredth (k : ℤ) : round2 ((k : ℚ) / 100) = (k : ℚ) / 100 := by
  unfold round2
  have h : ((k : ℚ) / 100) * 100 = (k : ℚ) := by field_simp
  rw [h, jsRound_intCast]

theorem round2_hundredth (q : ℚ) : ∃ k : ℤ, round2 q = (k : ℚ) / 100 :=
  ⟨jsRound (q * 100), rfl⟩

/-! ## Helper lemmas: the seat grouper invariant -/

theorem findBestGroupAux_ok {α : Type _} (num : α → Nat) (rest : List α) :
    ∀ best cur : List α,
      (best = [] ∨
        (2 ≤ best.length ∧ best.length ≤ 4 ∧ best.Chain' fun a b => num b = num a + 1)) →
      cur.length ≤ 4 → (cur.Chain' fun a b => num b = num a + 1) →
      (findBestGroupAux num best cur rest = [] ∨
        (2 ≤ (findBestGroupAux num best cur rest).length ∧
          (findBestGroupAux num best cur rest).length ≤ 4 ∧
          (findBestGroupAux num best cur rest).Chain' fun a b => num b = num a + 1)) := by
  induction rest with
  | nil =>
    intro best cur hb hc1 hc2
    rw [findBestGroupAux]
    split
    · next h => exact Or.inr ⟨h.1, hc1, hc2⟩
    · exact hb
  | cons s rest ih =>
    intro best cur hb hc1 hc2
    rw [findBestGroupAux]
    split
    · exact ih best [s] hb (by simp) (List.chain'_singleton s)
    · next lastSeat heq =>
      split
      · next h =>
        refine ih best (cur ++ [s]) hb ?_ ?_
        · have := h.2
          simp only [List.length_append, List.length_singleton]
          omega
        · refine List.chain'_append.mpr ⟨hc2, List.chain'_singleton s, ?_⟩
          intro x hx y hy
          rw [heq, Option.mem_def, Option.some_inj] at hx
          simp only [List.head?_cons, Option.mem_def, Option.some_inj] at hy
          subst hx; subst hy
          exact h.1
      · refine ih _ [s] ?_ (by simp) (List.chain'_singleton s)
        split
        · next h => exact Or.inr ⟨h.1, hc1, hc2⟩
        · exact hb

theorem findBestGroup_ok {α : Type _} (num : α → Nat) (seats : List α) :
    findBestGroup num seats = [] ∨
      (2 ≤ (findBestGroup num seats).length ∧ (findBestGroup num seats).length ≤ 4 ∧
        (findBestGroup num seats).Chain' fun a b => num b = num a + 1) :=
  findBestGroupAux_ok num seats [] [] (Or.inl rfl) (by simp) (by simp)

/-- C1: the seat grouper scans once, extending the current run while the
next seat number is one greater and the run has fewer than 4 members, keeps
a broken run when its length is in [2,4] and beats the best so far, and
checks the trailing run the same way; seats [101,102,103,105,106,107,108]
give [105,106,107,108] (capped to 4, never 5), and [1,3,5] give no group.
The returned run is always empty or of length 2–4 and consecutive. -/
theorem seat_grouper_best_run (seats : List Nat) :
    findBestGroup id [101, 102, 103, 105, 106, 107, 108] = [105, 106, 107, 108]
    ∧ findBestGroup id [1, 3, 5] = []
    ∧ findBestGroup id [101, 102, 103, 104, 105] = [101, 102, 103, 104]
    ∧ (findBestGroup id seats = []
        ∨ (2 ≤ (findBestGroup id seats).length ∧ (findBestGroup id seats).length ≤ 4))
    ∧ (findBestGroup id seats).Chain' (fun a b => b = a + 1) := by
  refine ⟨by decide, by decide, by decide, ?_, ?_⟩
  · rcases findBestGroup_ok id seats with h | h
    · exact Or.inl h
    · exact Or.inr ⟨h.1, h.2.1⟩
  · rcases findBestGroup_ok id seats with h | h
    · rw [h]; exact List.chain'_nil
    · exact h.2.2

/-! ## C9: the captcha retry loop -/

/-- C9: after 3 failed attempts the loop raises `CaptchaTimeoutError` — even
when the blocking modal is visible at every inspection, because the
`ScraperBlockedError` thrown inside the modal-check `try` block is caught by
that block's own `catch (modalError)` and only logged.  The loop can never
produce the blocked outcome. -/
theorem captcha_blocked_swallowed :
    captchaLoop (fun _ => false) (fun _ => true) = ScrapeOutcome.captchaTimeout
    ∧ (∀ solves blockedAt : Nat → Bool,
        captchaLoop solves blockedAt = ScrapeOutcome.solved
        ∨ captchaLoop solves blockedAt = ScrapeOutcome.captchaTimeout) := by
  constructor
  · rfl
  · intro solves blockedAt
    simp only [captchaLoop, captchaLoopGo]
    split_ifs <;> simp

/-! ## C6: lookup-method fee components -/

/-- The membership test of one lookup range, as the source writes it. -/
def rangeContains (x : ℚ) (r : LookupRange) : Bool :=
  decide (r.start ≤ x ∧ (r.«end» = 0 ∨ x < r.«end»))

theorem lookupAmount_eq_of_find? (ranges : List LookupRange) (x : ℚ) :
    ∀ r : LookupRange, ranges.find? (rangeContains x) = some r →
      lookupAmount ranges x = r.amount := by
  induction ranges with
  | nil => intro r h; simp [List.find?] at h
  | cons hd tl ih =>
    intro r h
    rw [lookupAmount]
    rcases hc : rangeContains x hd with _ | _
    · rw [List.find?_cons_of_neg _ (by simp [hc])] at h
      rw [if_neg (fun hp => by simp [rangeContains, hp] at hc)]
      exact ih r h
    · rw [List.find?_cons_of_pos _ hc] at h
      cases h
      exact if_pos (of_decide_eq_true hc)

/-- C6: a lookup-method fee component resolves to the fixed amount of the
first range [start, end) — end 0 meaning unbounded — containing base/100;
with ranges [(0,100,$5), (100,0,$10)], a $50 base gives $5 and a $500 base
gives $10 (amounts in cents). -/
theorem fee_lookup_first_range (component : FeeComponent) (base : ℚ)
    (ranges : List LookupRange) (x : ℚ) (r : LookupRange) :
    (component.calculationMethod = "Lookup" →
      feeComponentAmount component base = lookupAmount component.lookupRanges (base / 100))
    ∧ (ranges.find? (rangeContains x) = some r → lookupAmount ranges x = r.amount)
    ∧ lookupAmount [⟨0, 100, 500⟩, ⟨100, 0, 1000⟩] (5000 / 100) = 500
    ∧ lookupAmount [⟨0, 100, 500⟩, ⟨100, 0, 1000⟩] (50000 / 100) = 1000 := by
  refine ⟨?_, lookupAmount_eq_of_find? ranges x r, ?_, ?_⟩
  · intro h
    rw [feeComponentAmount, if_pos h]
  · with_unfolding_all decide
  · with_unfolding_all decide

/-! ## C7: percentage-method fee components -/

/-- C7: a percentage-method fee component resolves to base × rate / 100, and
with a numeric `roundOff` unit the amount is `Math.round`ed to the nearest
multiple of that unit (never further than half a unit away); 3% of 10000
cents with `roundOff` 25 is 300 cents, already a multiple of 25. -/
theorem fee_percentage_rounding (component : FeeComponent) (base rate roundOff : ℚ) :
    (component.calculationMethod = "Percentage" → component.rate = some rate →
      ((component.roundOff = none → feeComponentAmount component base = base * rate / 100)
       ∧ (component.roundOff = some roundOff →
           feeComponentAmount component base
             = (jsRound (base * rate / 100 / roundOff) : ℚ) * roundOff
           ∧ (∃ k : ℤ, feeComponentAmount component base = (k : ℚ) * roundOff)
           ∧ (0 < roundOff →
               |feeComponentAmount component base - base * rate / 100| ≤ roundOff / 2))))
    ∧ feeComponentAmount
        { calculationMethod := "Percentage", lookupRanges := [], rate := some 3,
          roundOff := some 25, amount := none, taxIds := [] } 10000 = 300 := by
  constructor
  · intro hm hr
    have hne : ¬ component.calculationMethod = "Lookup" := by rw [hm]; decide
    constructor
    · intro hro
      rw [feeComponentAmount, if_neg hne, if_pos hm, hr, hro]
    · intro hro
      have heval : feeComponentAmount component base
          = (jsRound (base * rate / 100 / roundOff) : ℚ) * roundOff := by
        rw [feeComponentAmount, if_neg hne, if_pos hm, hr, hro]
      refine ⟨heval, ⟨jsRound (base * rate / 100 / roundOff), heval⟩, ?_⟩
      intro hpos
      rw [heval]
      have hb := abs_jsRound_sub_le (base * rate / 100 / roundOff)
      have hcancel : base * rate / 100 / roundOff * roundOff = base * rate / 100 := by
        field_simp
        ring
      have hfactor :
          (jsRound (base * rate / 100 / roundOff) : ℚ) * roundOff - base * rate / 100
            = ((jsRound (base * rate / 100 / roundOff) : ℚ) - base * rate / 100 / roundOff)
              * roundOff := by
        rw [sub_mul, hcancel]
      rw [hfactor, abs_mul, abs_of_pos hpos]
      calc |(jsRound (base * rate / 100 / roundOff) : ℚ) - base * rate / 100 / roundOff|
            * roundOff
          ≤ 1/2 * roundOff := by
            exact mul_le_mul_of_nonneg_right hb (le_of_lt hpos)
        _ = roundOff / 2 := by ring
  · with_unfolding_all decide

/-! ## C3: endpoint pattern matching -/

theorem jsIncludes_iff (needle : List Char) :
    ∀ hay : List Char, jsIncludes needle hay = true ↔ needle <:+: hay := by
  intro hay
  induction hay with
  | nil =>
    rw [jsIncludes]
    simp [List.isEmpty_iff]
  | cons c t ih =>
    rw [jsIncludes]
    simp only [Bool.or_eq_true, List.isPrefixOf_iff_prefix, ih, List.infix_cons_iff]

theorem splitOnChar_no_sep (sep : Char) :
    ∀ cs : List Char, sep ∉ cs → splitOnChar sep cs = [cs] := by
  intro cs
  induction cs with
  | nil => intro _; rfl
  | cons c t ih =>
    intro h
    have hc : ¬ c = sep := fun hc => h (hc ▸ List.mem_cons_self c t)
    rw [splitOnChar, if_neg hc, ih (fun ht => h (List.mem_cons_of_mem c ht))]

/-- C3 counterexample: the matcher requires each literal segment to be a
substring *anywhere*, not in order: for the pattern `/a/*/b` and the URL
`/a/b`, both `/a/` and `/b` are substrings of `/a/b`, so the code's match
succeeds, while the claim (and the spec's own example) say it is false —
an in-order match is impossible since `/a/` and `/b` cannot occur
disjointly in order inside the 4-character URL. -/
theorem endpoint_match_counterexample :
    patternMatches "/a/*/b".data "/a/b".data = true
    ∧ inOrderMatches (splitOnChar '*' "/a/*/b".data) "/a/b".data = false := by
  constructor
  · decide
  · decide

/-- C3 amended: the endpoint pattern match succeeds iff every literal
segment obtained by splitting the pattern on `*` is a substring of the URL,
at any position and in any order; a pattern with no `*` requires the whole
pattern as a substring.  `match("/a/*/b", "/a/123/b")` is true, and
`match("/a/*/b", "/a/b")` is also true (not false as the spec claims). -/
theorem endpoint_match_substrings (pattern url : List Char) :
    (patternMatches pattern url = true ↔
      ∀ part ∈ splitOnChar '*' pattern, part <:+: url)
    ∧ ('*' ∉ pattern → (patternMatches pattern url = true ↔ pattern <:+: url))
    ∧ patternMatches "/a/*/b".data "/a/123/b".data = true
    ∧ patternMatches "/a/*/b".data "/a/b".data = true := by
  have hmain : patternMatches pattern url = true ↔
      ∀ part ∈ splitOnChar '*' pattern, part <:+: url := by
    rw [patternMatches, List.all_eq_true]
    constructor
    · intro h part hp
      exact (jsIncludes_iff part url).mp (h part hp)
    · intro h part hp
      exact (jsIncludes_iff part url).mpr (h part hp)
  refine ⟨hmain, ?_, by decide, by decide⟩
  intro hstar
  rw [hmain, splitOnChar_no_sep '*' pattern hstar]
  simp

/-! ## C4: dynamic-price overrides -/

/-- A price level whose dynamic-price table binds the seat key to 0 cents. -/
def pldOverrideZero : PriceLevelData :=
  { priceLevelID := "PL1", label := "L", basePrice := 100, facilityFee := 0,
    totalFees := 0, totalTax := 0, websiteDisplayPrice := 0,
    priceTypeID := some "PT", rawDynamicPrices := [("PT-S-R-T-PL1", 0)] }

/-- C4 counterexample: an override *exists* for the seat's key (with value
0 cents), yet the computed display price is the static base-plus-facility-fee
(100), not the override plus fees and tax (0): `rawDynamicPrices[key] || null`
treats a zero price as absent. -/
theorem dynamic_override_zero_counterexample :
    pldOverrideZero.priceTypeID = some "PT"
    ∧ objGet pldOverrideZero.rawDynamicPrices
        (dynamicPriceKeyOf "PT" "S" "R" "T" pldOverrideZero.priceLevelID) = some 0
    ∧ pldOverrideZero.basePrice = 100 ∧ pldOverrideZero.facilityFee = 0
    ∧ pldOverrideZero.totalFees = 0 ∧ pldOverrideZero.totalTax = 0
    ∧ (calculateSeatPricing pldOverrideZero "S" "R" "T").websiteDisplayPrice = 100
    ∧ (calculateSeatPricing pldOverrideZero "S" "R" "T").isDynamicPricing = false
    ∧ ((0 : ℚ) + pldOverrideZero.totalFees + pldOverrideZero.totalTax ≠
        (calculateSeatPricing pldOverrideZero "S" "R" "T").websiteDisplayPrice) := by
  refine ⟨rfl, by with_unfolding_all decide, rfl, rfl, rfl, rfl,
    by with_unfolding_all decide, by with_unfolding_all decide,
    by with_unfolding_all decide⟩

/-- C4 amended: when a *non-zero* dynamic-price override exists for the
seat's (price-type, section, row, seat) key, the computed per-seat price uses
it in place of base-plus-facility-fee for that seat only, with the fee total
and tax total taken unchanged from the price level's precomputed values; when
the key is absent — or bound to 0, which the falsy lookup treats as absent —
the static base-plus-facility-fee is used. -/
theorem dynamic_override_pricing (pld : PriceLevelData)
    (sectionID rowID seatId pt : String) (v : ℚ)
    (hpt : pld.priceTypeID = some pt) :
    (objGet pld.rawDynamicPrices
        (dynamicPriceKeyOf pt sectionID rowID seatId pld.priceLevelID) = some v → v ≠ 0 →
      (calculateSeatPricing pld sectionID rowID seatId).websiteDisplayPrice
          = v + pld.totalFees + pld.totalTax
        ∧ (calculateSeatPricing pld sectionID rowID seatId).basePrice = v - pld.facilityFee
        ∧ (calculateSeatPricing pld sectionID rowID seatId).totalFees = pld.totalFees
        ∧ (calculateSeatPricing pld sectionID rowID seatId).totalTax = pld.totalTax
        ∧ (calculateSeatPricing pld sectionID rowID seatId).isDynamicPricing = true)
    ∧ (objGet pld.rawDynamicPrices
         (dynamicPriceKeyOf pt sectionID rowID seatId pld.priceLevelID) = none ∨
       objGet pld.rawDynamicPrices
         (dynamicPriceKeyOf pt sectionID rowID seatId pld.priceLevelID) = some 0 →
      (calculateSeatPricing pld sectionID rowID seatId).websiteDisplayPrice
          = pld.basePrice + pld.facilityFee + pld.totalFees + pld.totalTax
        ∧ (calculateSeatPricing pld sectionID rowID seatId).basePrice = pld.basePrice
        ∧ (calculateSeatPricing pld sectionID rowID seatId).totalFees = pld.totalFees
        ∧ (calculateSeatPricing pld sectionID rowID seatId).totalTax = pld.totalTax
        ∧ (calculateSeatPricing pld sectionID rowID seatId).isDynamicPricing = false) := by
  constructor
  · intro hkey hv
    have hdyn : getDynamicPrice pld sectionID rowID seatId = some v := by
      simp only [getDynamicPrice, hpt, hkey, if_neg hv]
    simp [calculateSeatPricing, hdyn]
  · intro hkey
    have hdyn : getDynamicPrice pld sectionID rowID seatId = none := by
      rcases hkey with h | h
      · simp only [getDynamicPrice, hpt, h]
      · simp [getDynamicPrice, hpt, h]
    simp [calculateSeatPricing, hdyn]

/-- A price level with a non-zero dynamic-price override of 5000 cents. -/
def pldOverride : PriceLevelData :=
  { priceLevelID := "PL1", label := "L", basePrice := 100, facilityFee := 50,
    totalFees := 30, totalTax := 20, websiteDisplayPrice := 200,
    priceTypeID := some "PT", rawDynamicPrices := [("PT-S-R-T-PL1", 5000)] }

theorem dynamic_override_pricing_witness :
    (calculateSeatPricing pldOverride "S" "R" "T").websiteDisplayPrice
      = 5000 + pldOverride.totalFees + pldOverride.totalTax :=
  ((dynamic_override_pricing pldOverride "S" "R" "T" "PT" 5000 rfl).1
    (by decide) (by norm_num)).1

/-! ## C5: tax aggregation -/

/-- Sum of the amounts of price components tagged with tax id 1001. -/
def taxablePriceComponents (priceComponents : List PriceComponent) : ℚ :=
  ((priceComponents.filter fun comp => "1001" ∈ comp.taxIds).map fun comp => comp.amount).sum

/-- The fee components that the fee loop evaluates: components of every fee
assigned to the offer that resolves in the root fee map with application
method `PerItem`, in loop order. -/
def applicableFeeComponents (rootFeeMap : List (String × Fee))
    (offerFees : List FeeRef) : List FeeComponent :=
  (offerFees.map fun offerAssignedFee =>
    match objGet rootFeeMap offerAssignedFee.id with
    | some feeDef => if feeDef.applicationMethod = "PerItem" then feeDef.components else []
    | none => []).flatten

/-- Sum of all applicable per-item fee component amounts. -/
def perItemFeeTotal (rootFeeMap : List (String × Fee)) (offerFees : List FeeRef)
    (base : ℚ) : ℚ :=
  ((applicableFeeComponents rootFeeMap offerFees).map fun c => feeComponentAmount c base).sum

/-- Sum of the applicable per-item fee component amounts whose component is
tagged with tax id 1001. -/
def taxableFeeAmount (rootFeeMap : List (String × Fee)) (offerFees : List FeeRef)
    (base : ℚ) : ℚ :=
  (((applicableFeeComponents rootFeeMap offerFees).filter fun c => "1001" ∈ c.taxIds).map
    fun c => feeComponentAmount c base).sum

theorem priceComponentScan_taxable (priceComponents : List PriceComponent) :
    ∀ init : ℚ × ℚ × ℚ,
      (priceComponents.foldl priceComponentStep init).2.2
        = init.2.2 + taxablePriceComponents priceComponents := by
  induction priceComponents with
  | nil => intro init; simp [taxablePriceComponents]
  | cons comp rest ih =>
    intro init
    rw [List.foldl_cons, ih]
    by_cases h : "1001" ∈ comp.taxIds
    · simp only [priceComponentStep, if_pos h, taxablePriceComponents, List.filter_cons]
      simp [h]
      ring
    · simp only [priceComponentStep, if_neg h, taxablePriceComponents, List.filter_cons]
      simp [h]

theorem feeComponents_foldl (base : ℚ) (comps : List FeeComponent) :
    ∀ init : ℚ × ℚ,
      comps.foldl (feeComponentsStep base) init
        = (init.1 + (comps.map fun c => feeComponentAmount c base).sum,
           init.2 + ((comps.filter fun c => "1001" ∈ c.taxIds).map
             fun c => feeComponentAmount c base).sum) := by
  induction comps with
  | nil => intro init; simp
  | cons c rest ih =>
    intro init
    rw [List.foldl_cons, ih]
    by_cases h : "1001" ∈ c.taxIds
    · simp only [feeComponentsStep, if_pos h, List.map_cons, List.sum_cons, List.filter_cons]
      simp [h, Prod.ext_iff]
      constructor <;> ring
    · simp only [feeComponentsStep, if_neg h, List.map_cons, List.sum_cons, List.filter_cons]
      simp [h, Prod.ext_iff]
      ring

theorem feeScan_spec (rootFeeMap : List (String × Fee)) (base : ℚ)
    (offerFees : List FeeRef) :
    ∀ init : ℚ × ℚ,
      offerFees.foldl (feeStep rootFeeMap base) init
        = (init.1 + perItemFeeTotal rootFeeMap offerFees base,
           init.2 + taxableFeeAmount rootFeeMap offerFees base) := by
  induction offerFees with
  | nil =>
    intro init
    simp [perItemFeeTotal, taxableFeeAmount, applicableFeeComponents]
  | cons fref rest ih =>
    intro init
    rw [List.foldl_cons, ih]
    have happ : applicableFeeComponents rootFeeMap (fref :: rest)
        = (match objGet rootFeeMap fref.id with
           | some feeDef =>
             if feeDef.applicationMethod = "PerItem" then feeDef.components else []
           | none => []) ++ applicableFeeComponents rootFeeMap rest := by
      simp [applicableFeeComponents]
    rcases hget : objGet rootFeeMap fref.id with _ | feeDef
    · rw [hget] at happ
      have happ2 : applicableFeeComponents rootFeeMap (fref :: rest)
          = applicableFeeComponents rootFeeMap rest := by rw [happ]; rfl
      simp only [feeStep, hget, perItemFeeTotal, taxableFeeAmount, happ2]
    · rw [hget] at happ
      by_cases hper : feeDef.applicationMethod = "PerItem"
      · have happ2 : applicableFeeComponents rootFeeMap (fref :: rest)
            = feeDef.components ++ applicableFeeComponents rootFeeMap rest := by
          rw [happ]; simp [hper]
        simp only [feeStep, hget, if_pos hper, feeComponents_foldl, perItemFeeTotal,
          taxableFeeAmount, happ2, List.map_append, List.sum_append, List.filter_append,
          Prod.mk.injEq]
        constructor <;> ring
      · have happ2 : applicableFeeComponents rootFeeMap (fref :: rest)
            = applicableFeeComponents rootFeeMap rest := by
          rw [happ]; simp [hper]
        simp only [feeStep, hget, if_neg hper, perItemFeeTotal, taxableFeeAmount, happ2]

theorem mem_buildPriceLevelsMap (price : PriceData) (k : String) (pld : PriceLevelData)
    (h : (k, pld) ∈ buildPriceLevelsMap price) :
    ∃ offerPrice ∈ price.offerPrices, ∃ zonePrice ∈ offerPrice.zonePrices,
      ∃ priceLevel ∈ zonePrice.priceLevels,
        k = priceLevel.priceLevelID
        ∧ processPriceLevel (rootFeeMapOf price) (taxMapOf price) offerPrice zonePrice
            priceLevel = some pld := by
  simp only [buildPriceLevelsMap, List.mem_flatten, List.mem_map] at h
  obtain ⟨a, ⟨offerPrice, hop, ha⟩, hmem⟩ := h
  subst ha
  simp only [List.mem_flatten, List.mem_map] at hmem
  obtain ⟨b, ⟨zonePrice, hzp, hb⟩, hmem⟩ := hmem
  subst hb
  simp only [List.mem_filterMap, Option.map_eq_some'] at hmem
  obtain ⟨priceLevel, hpl, pld', hproc, heq⟩ := hmem
  injection heq with h1 h2
  subst h1
  subst h2
  exact ⟨offerPrice, hop, zonePrice, hzp, priceLevel, hpl, rfl, hproc⟩


theorem priceComponentScan_snd (priceComponents : List PriceComponent) :
    (priceComponentScan priceComponents).2.2 = taxablePriceComponents priceComponents := by
  rw [priceComponentScan, priceComponentScan_taxable]
  exact zero_add _

theorem feeScan_eq (rootFeeMap : List (String × Fee)) (offerFees : List FeeRef) (base : ℚ) :
    feeScan rootFeeMap offerFees base
      = (perItemFeeTotal rootFeeMap offerFees base,
         taxableFeeAmount rootFeeMap offerFees base) := by
  rw [feeScan, feeScan_spec]
  simp

theorem processPriceLevel_totalTax (rootFeeMap : List (String × Fee))
    (taxMap : List (String × Tax)) (offerPrice : OfferPrice) (zonePrice : ZonePrice)
    (priceLevel : PriceLevel) (pld : PriceLevelData) (entry : PriceEntry)
    (rest : List PriceEntry) (hprices : priceLevel.prices = entry :: rest)
    (hproc : processPriceLevel rootFeeMap taxMap offerPrice zonePrice priceLevel
      = some pld) :
    pld.totalTax
      = (taxablePriceComponents entry.priceComponents
          + taxableFeeAmount rootFeeMap offerPrice.fees entry.base)
        * (match objGet taxMap "1001" with
           | some letTaxDef => letTaxDef.rate
           | none => 0) / 100 := by
  rw [processPriceLevel, hprices] at hproc
  rw [Option.some_inj] at hproc
  subst hproc
  show ((priceComponentScan entry.priceComponents).2.2
      + (feeScan rootFeeMap offerPrice.fees entry.base).2) * _ / 100 = _
  rw [priceComponentScan_snd, feeScan_eq]

/-- C5: only price components and applicable fee components tagged with tax
id 1001 contribute to the taxable base, and the total tax is the taxable
base times the global 1001 rate over 100; a price level with no tagged
components yields zero tax regardless of the rate. -/
theorem tax_from_tagged_components (price : PriceData) (k : String) (pld : PriceLevelData)
    (h : (k, pld) ∈ buildPriceLevelsMap price) :
    ∃ offerPrice ∈ price.offerPrices, ∃ zonePrice ∈ offerPrice.zonePrices,
      ∃ priceLevel ∈ zonePrice.priceLevels, ∃ entry : PriceEntry,
        priceLevel.prices.head? = some entry
        ∧ pld.totalTax
            = (taxablePriceComponents entry.priceComponents
                + taxableFeeAmount (rootFeeMapOf price) offerPrice.fees entry.base)
              * (match objGet (taxMapOf price) "1001" with
                 | some letTaxDef => letTaxDef.rate
                 | none => 0) / 100
        ∧ ((entry.priceComponents.filter fun comp => "1001" ∈ comp.taxIds) = [] →
            ((applicableFeeComponents (rootFeeMapOf price) offerPrice.fees).filter
              fun c => "1001" ∈ c.taxIds) = [] →
            pld.totalTax = 0) := by
  obtain ⟨offerPrice, hop, zonePrice, hzp, priceLevel, hpl, rfl, hproc⟩ :=
    mem_buildPriceLevelsMap price k pld h
  have hne : priceLevel.prices ≠ [] := by
    intro hnil
    rw [processPriceLevel, hnil] at hproc
    exact Option.noConfusion hproc
  obtain ⟨entry, rest, hprices⟩ := List.exists_cons_of_ne_nil hne
  have htax := processPriceLevel_totalTax (rootFeeMapOf price) (taxMapOf price)
    offerPrice zonePrice priceLevel pld entry rest hprices hproc
  refine ⟨offerPrice, hop, zonePrice, hzp, priceLevel, hpl, entry,
    by rw [hprices]; rfl, htax, ?_⟩
  intro hp hf
  rw [htax, taxablePriceComponents, hp, taxableFeeAmount, hf]
  simp

/-! ## A small concrete dataset used by the witnesses -/

def sampleFee : Fee :=
  { id := "F1", applicationMethod := "PerItem",
    components := [{ calculationMethod := "Fixed", lookupRanges := [], rate := none,
                     roundOff := none, amount := some 30, taxIds := ["1001"] }] }

def samplePriceLevel : PriceLevel :=
  { priceLevelID := "PL1", label := "Floor A",
    prices := [{ base := 150, priceTypeID := some "PT",
                 priceComponents :=
                   [{ name := "Base Component", amount := 100, taxIds := ["1001"] },
                    { name := "VEN_FacFee", amount := 50, taxIds := [] }] }] }

def samplePrice : PriceData :=
  { fees := [sampleFee], taxes := [{ id := "1001", rate := 10 }],
    offerPrices := [{ zonePrices := [{ priceLevels := [samplePriceLevel],
                                       rawDynamicPrices := [] }],
                      fees := [{ id := "F1" }] }] }

def sampleItem (n : Nat) (sid : String) : Item :=
  { sectionID := "S1", sectionLabel := "A", rowID := "R1", rowLabel := "1",
    priceLevelID := "PL1", number := n, displayOrder := n, id := sid,
    statusCodeLabel := some "Available", attributes := [], seatType := some "STANDARD" }

def sampleResults : AxsResults :=
  { sections := [("A", { connectionFee := some 200 })],
    offerSearch := some { offers := [{ offerID := "O1", offerType := none,
                                       items := [sampleItem 10 "s10", sampleItem 11 "s11",
                                                 sampleItem 12 "s12"] }] },
    price := samplePrice }

/-- The price level data that `buildPriceLevelsMap` computes for the sample
dataset: taxable base 100 + 30 at 10% gives 13 cents of tax. -/
def samplePld : PriceLevelData :=
  { priceLevelID := "PL1", label := "Floor A", basePrice := 100, facilityFee := 50,
    totalFees := 30, totalTax := 13, websiteDisplayPrice := 193,
    priceTypeID := some "PT", rawDynamicPrices := [] }

theorem tax_from_tagged_components_witness :
    ∃ offerPrice ∈ samplePrice.offerPrices, ∃ zonePrice ∈ offerPrice.zonePrices,
      ∃ priceLevel ∈ zonePrice.priceLevels, ∃ entry : PriceEntry,
        priceLevel.prices.head? = some entry
        ∧ samplePld.totalTax
            = (taxablePriceComponents entry.priceComponents
                + taxableFeeAmount (rootFeeMapOf samplePrice) offerPrice.fees entry.base)
              * (match objGet (taxMapOf samplePrice) "1001" with
                 | some letTaxDef => letTaxDef.rate
                 | none => 0) / 100
        ∧ ((entry.priceComponents.filter fun comp => "1001" ∈ comp.taxIds) = [] →
            ((applicableFeeComponents (rootFeeMapOf samplePrice) offerPrice.fees).filter
              fun c => "1001" ∈ c.taxIds) = [] →
            samplePld.totalTax = 0) :=
  tax_from_tagged_components samplePrice "PL1" samplePld (by with_unfolding_all decide)

/-! ## Helper lemmas: counting comma-separated seats, ticket inversion -/

theorem splitOnChar_length (sep : Char) (cs : List Char) :
    (splitOnChar sep cs).length = cs.count sep + 1 := by
  induction cs with
  | nil => rfl
  | cons c t ih =>
    rw [splitOnChar]
    by_cases h : c = sep
    · rw [if_pos h]
      simp only [List.length_cons, ih, List.count_cons]
      simp [h]
    · rw [if_neg h]
      have hne : splitOnChar sep t ≠ [] := by
        intro hnil
        rw [hnil] at ih
        simp at ih
      obtain ⟨p, ps, hp⟩ := List.exists_cons_of_ne_nil hne
      rw [hp]
      rw [hp] at ih
      simp only [List.length_cons] at ih ⊢
      simp only [List.count_cons]
      simp [h, ih]

theorem digitChar_not_comma (m : Nat) (h : m < 10) : Nat.digitChar m ≠ ',' := by
  interval_cases m <;> decide

theorem toDigitsCore_not_comma :
    ∀ (fuel n : Nat) (ds : List Char), (∀ c ∈ ds, c ≠ ',') →
      ∀ c ∈ Nat.toDigitsCore 10 fuel n ds, c ≠ ',' := by
  intro fuel
  induction fuel with
  | zero => intro n ds hds; exact hds
  | succ fuel ih =>
    intro n ds hds c hc
    rw [Nat.toDigitsCore] at hc
    have hd : ∀ x ∈ (Nat.digitChar (n % 10) :: ds), x ≠ ',' := by
      intro x hx
      rcases List.mem_cons.mp hx with h | h
      · rw [h]; exact digitChar_not_comma _ (Nat.mod_lt _ (by norm_num))
      · exact hds x h
    by_cases h10 : n / 10 = 0
    · rw [if_pos h10] at hc
      exact hd c hc
    · rw [if_neg h10] at hc
      exact ih (n / 10) _ hd c hc

theorem count_comma_repr (n : Nat) : (toString n).data.count ',' = 0 := by
  rw [List.count_eq_zero]
  intro hmem
  exact toDigitsCore_not_comma (n + 1) n [] (by simp) ',' hmem rfl

theorem count_comma_jsJoin :
    ∀ l : List String, l ≠ [] → (∀ s ∈ l, s.data.count ',' = 0) →
      (jsJoin "," l).data.count ',' = l.length - 1 := by
  intro l
  induction l with
  | nil => intro h; exact absurd rfl h
  | cons a tl ih =>
    intro _ hc
    rcases tl with _ | ⟨b, rest⟩
    · show (jsJoin "," [a]).data.count ',' = 0
      exact hc a (List.mem_singleton.mpr rfl)
    · have hjoin : jsJoin "," (a :: b :: rest) = a ++ "," ++ jsJoin "," (b :: rest) := rfl
      rw [hjoin, String.data_append, String.data_append, List.count_append,
        List.count_append]
      rw [hc a (List.mem_cons_self a _)]
      rw [ih (by simp) (fun s hs => hc s (List.mem_cons_of_mem a hs))]
      simp [Nat.add_comm]

theorem commaSepCount_join_seats (grp : List SeatInfo) (hne : grp ≠ []) :
    commaSepCount (jsJoin "," (grp.map fun s => toString s.number)) = grp.length := by
  rw [commaSepCount, splitOnChar_length, count_comma_jsJoin]
  · simp only [List.length_map]
    have : 1 ≤ grp.length := List.length_pos.mpr hne
    omega
  · simp [hne]
  · intro s hs
    obtain ⟨seat, _, rfl⟩ := List.mem_map.mp hs
    exact count_comma_repr seat.number

theorem processSectionRow_inv (sections : List (String × SectionData))
    (plMap : List (String × PriceLevelData)) (g : RowGroup) (t : Ticket)
    (h : processSectionRow sections plMap g = some t) :
    ∃ bestPriceLevelId maxSeats lowestPrice selectedSeats priceLevelData firstSeat,
      selectBestLevel plMap g (seatsByPriceLevelOf g.seats)
          = some (bestPriceLevelId, maxSeats, lowestPrice)
      ∧ objGet (seatsByPriceLevelOf g.seats) bestPriceLevelId = some selectedSeats
      ∧ objGet plMap bestPriceLevelId = some priceLevelData
      ∧ (findBestGroup (fun s => s.number) (sortSeats selectedSeats)).head? = some firstSeat
      ∧ 2 ≤ (findBestGroup (fun s => s.number) (sortSeats selectedSeats)).length
      ∧ t.«section» = g.sectionLabel
      ∧ t.row = g.rowLabel
      ∧ t.seats = jsJoin "," ((findBestGroup (fun s => s.number) (sortSeats selectedSeats)).map
          fun s => toString s.number)
      ∧ t.quantity = (findBestGroup (fun s => s.number) (sortSeats selectedSeats)).length
      ∧ t.face_price = round2 (((calculateSeatPricing priceLevelData g.sectionID g.rowID
            firstSeat.seatId).basePrice
          + (calculateSeatPricing priceLevelData g.sectionID g.rowID
            firstSeat.seatId).facilityFee) / 100)
      ∧ t.taxed_cost = round2 (((calculateSeatPricing priceLevelData g.sectionID g.rowID
            firstSeat.seatId).totalFees
          + (calculateSeatPricing priceLevelData g.sectionID g.rowID
            firstSeat.seatId).totalTax) / 100)
      ∧ t.connection_fee = round2 (connectionFeeOf sections g.sectionLabel / 100)
      ∧ t.cost = round2 (t.face_price + t.taxed_cost + t.connection_fee)
      ∧ t.isDynamicPricing = (calculateSeatPricing priceLevelData g.sectionID g.rowID
          firstSeat.seatId).isDynamicPricing := by
  rw [processSectionRow] at h
  split at h
  · exact Option.noConfusion h
  · next bestPriceLevelId maxSeats lowestPrice hsel =>
    split at h
    · next selectedSeats priceLevelData hget1 hget2 =>
      dsimp only [] at h
      split at h
      · exact Option.noConfusion h
      · next firstSeat hhead =>
        split at h
        · next hlen =>
          rw [Option.some_inj] at h
          subst h
          exact ⟨bestPriceLevelId, maxSeats, lowestPrice, selectedSeats, priceLevelData,
            firstSeat, hsel, hget1, hget2, hhead, hlen, rfl, rfl, rfl, rfl, rfl, rfl, rfl,
            rfl, rfl⟩
        · exact Option.noConfusion h
    · exact Option.noConfusion h

theorem selectBestLevel_foldl (plMap : List (String × PriceLevelData)) (g : RowGroup) :
    ∀ (byLevel : List (String × List SeatInfo)) (acc : Option (String × Nat × ℚ))
      (bestId : String) (maxSeats : Nat) (lowestPrice : ℚ),
      byLevel.foldl (selectStep plMap g) acc = some (bestId, maxSeats, lowestPrice) →
      ((∀ p ∈ byLevel, ∀ pld, objGet plMap p.1 = some pld →
          p.2.length ≤ maxSeats
          ∧ (p.2.length = maxSeats → lowestPrice ≤ averagePriceOf pld g p.2))
        ∧ ((∃ p ∈ byLevel, p.1 = bestId ∧ ∃ pld, objGet plMap p.1 = some pld
              ∧ p.2.length = maxSeats ∧ averagePriceOf pld g p.2 = lowestPrice)
           ∨ acc = some (bestId, maxSeats, lowestPrice))
        ∧ (∀ aid an aavg, acc = some (aid, an, aavg) →
            an ≤ maxSeats ∧ (an = maxSeats → lowestPrice ≤ aavg))) := by
  intro byLevel
  induction byLevel with
  | nil =>
    intro acc bestId maxSeats lowestPrice h
    rw [List.foldl_nil] at h
    refine ⟨by simp, Or.inr h, ?_⟩
    intro aid an aavg ha
    rw [ha, Option.some_inj] at h
    cases h
    exact ⟨le_refl _, fun _ => le_refl _⟩
  | cons p rest ih =>
    intro acc bestId maxSeats lowestPrice h
    rw [List.foldl_cons] at h
    obtain ⟨hopt, hach, hdom⟩ := ih _ _ _ _ h
    rcases hget : objGet plMap p.1 with _ | pld
    · have hstep : selectStep plMap g acc p = acc := by
        rw [selectStep, hget]
      rw [hstep] at hach hdom
      refine ⟨?_, ?_, hdom⟩
      · intro q hq pld' hq'
        rcases List.mem_cons.mp hq with rfl | hq
        · rw [hget] at hq'; exact Option.noConfusion hq'
        · exact hopt q hq pld' hq'
      · rcases hach with ⟨q, hq, hrest⟩ | hacc
        · exact Or.inl ⟨q, List.mem_cons_of_mem p hq, hrest⟩
        · exact Or.inr hacc
    · rcases hacc : acc with _ | ⟨⟨aid, an, aavg⟩⟩
      · have hstep : selectStep plMap g acc p
            = some (p.1, p.2.length, averagePriceOf pld g p.2) := by
          simp only [selectStep, hget, hacc]
        rw [hstep] at hach hdom
        have hp := hdom p.1 p.2.length (averagePriceOf pld g p.2) rfl
        refine ⟨?_, ?_, ?_⟩
        · intro q hq pld' hq'
          rcases List.mem_cons.mp hq with rfl | hq
          · rw [hget, Option.some_inj] at hq'; subst hq'; exact hp
          · exact hopt q hq pld' hq'
        · rcases hach with ⟨q, hq, hrest⟩ | hs
          · exact Or.inl ⟨q, List.mem_cons_of_mem p hq, hrest⟩
          · rw [Option.some_inj, Prod.ext_iff] at hs
            obtain ⟨h1, hs2⟩ := hs
            rw [Prod.ext_iff] at hs2
            obtain ⟨h2, h3⟩ := hs2
            exact Or.inl ⟨p, List.mem_cons_self p rest, h1, pld, hget, h2, h3⟩
        · intro aid an aavg ha
          exact Option.noConfusion ha
      · by_cases hcond : an < p.2.length
          ∨ (p.2.length = an ∧ averagePriceOf pld g p.2 < aavg)
        · have hstep : selectStep plMap g acc p
              = some (p.1, p.2.length, averagePriceOf pld g p.2) := by
            simp only [selectStep, hget, hacc]
            rw [if_pos hcond]
          rw [hstep] at hach hdom
          have hp := hdom p.1 p.2.length (averagePriceOf pld g p.2) rfl
          refine ⟨?_, ?_, ?_⟩
          · intro q hq pld' hq'
            rcases List.mem_cons.mp hq with rfl | hq
            · rw [hget, Option.some_inj] at hq'; subst hq'; exact hp
            · exact hopt q hq pld' hq'
          · rcases hach with ⟨q, hq, hrest⟩ | hs
            · exact Or.inl ⟨q, List.mem_cons_of_mem p hq, hrest⟩
            · rw [Option.some_inj, Prod.ext_iff] at hs
              obtain ⟨h1, hs2⟩ := hs
              rw [Prod.ext_iff] at hs2
              obtain ⟨h2, h3⟩ := hs2
              exact Or.inl ⟨p, List.mem_cons_self p rest, h1, pld, hget, h2, h3⟩
          · intro aid' an' aavg' ha
            rw [Option.some_inj, Prod.ext_iff] at ha
            obtain ⟨ha1, ha2⟩ := ha
            rw [Prod.ext_iff] at ha2
            obtain ⟨ha2, ha3⟩ := ha2
            subst ha1; subst ha2; subst ha3
            rcases hcond with hlt | ⟨heq, hltq⟩
            · refine ⟨le_of_lt (lt_of_lt_of_le hlt hp.1), ?_⟩
              intro hEq
              exact absurd hp.1 (Nat.not_le.mpr (hEq ▸ hlt))
            · refine ⟨heq ▸ hp.1, ?_⟩
              intro hEq
              have hl : lowestPrice ≤ averagePriceOf pld g p.2 := hp.2 (heq.trans hEq)
              exact le_of_lt (lt_of_le_of_lt hl hltq)
        · have hstep : selectStep plMap g acc p = some (aid, an, aavg) := by
            simp only [selectStep, hget, hacc]
            rw [if_neg hcond]
          rw [hstep] at hach hdom
          have hda := hdom aid an aavg rfl
          push_neg at hcond
          refine ⟨?_, ?_, ?_⟩
          · intro q hq pld' hq'
            rcases List.mem_cons.mp hq with rfl | hq
            · rw [hget, Option.some_inj] at hq'; subst hq'
              refine ⟨le_trans hcond.1 hda.1, ?_⟩
              intro hEq
              have han : an = maxSeats := le_antisymm hda.1 (hEq ▸ hcond.1)
              exact le_trans (hda.2 han) (hcond.2 (by omega))
            · exact hopt q hq pld' hq'
          · rcases hach with ⟨q, hq, hrest⟩ | hs
            · exact Or.inl ⟨q, List.mem_cons_of_mem p hq, hrest⟩
            · exact Or.inr hs
          · intro aid' an' aavg' ha
            rw [Option.some_inj, Prod.ext_iff] at ha
            obtain ⟨ha1, ha2⟩ := ha
            rw [Prod.ext_iff] at ha2
            obtain ⟨ha2, ha3⟩ := ha2
            subst ha1; subst ha2; subst ha3
            exact hda

theorem mem_parseAXSTickets (axsResults : AxsResults) (t : Ticket)
    (h : t ∈ parseAXSTickets axsResults) :
    ∃ offerSearch, axsResults.offerSearch = some offerSearch
      ∧ ∃ p ∈ collectSeats offerSearch.offers,
          processSectionRow axsResults.sections (buildPriceLevelsMap axsResults.price) p.2
            = some t := by
  rw [parseAXSTickets] at h
  rcases hos : axsResults.offerSearch with _ | offerSearch
  · rw [hos] at h
    exact absurd h (List.not_mem_nil t)
  · rw [hos] at h
    simp only [List.mem_filterMap] at h
    obtain ⟨p, hp, hproc⟩ := h
    exact ⟨offerSearch, rfl, p, hp, hproc⟩

/-- C2: every ticket record produced by `parseAXSTickets` has a quantity in
[2,4] equal to the number of comma-separated seat numbers in its `seats`
field. -/
theorem ticket_quantity_bounds (axsResults : AxsResults) (t : Ticket)
    (h : t ∈ parseAXSTickets axsResults) :
    2 ≤ t.quantity ∧ t.quantity ≤ 4 ∧ commaSepCount t.seats = t.quantity := by
  obtain ⟨offerSearch, hos, p, hp, hrow⟩ := mem_parseAXSTickets axsResults t h
  obtain ⟨bid, ms, lp, sel, pld, fs, hsel, hget1, hget2, hhead, hlen, hsec, hrowl,
    hseats, hquant, hface, htaxed, hconn, hcost, hdyn⟩ :=
    processSectionRow_inv _ _ _ _ hrow
  have hne : findBestGroup (fun s => s.number) (sortSeats sel) ≠ [] := by
    intro hnil
    rw [hnil] at hlen
    simp at hlen
  refine ⟨hquant ▸ hlen, ?_, ?_⟩
  · rw [hquant]
    rcases findBestGroup_ok (fun s => s.number) (sortSeats sel) with hg | hg
    · exact absurd hg hne
    · exact hg.2.1
  · rw [hseats, hquant]
    exact commaSepCount_join_seats _ hne

/-- The one ticket `parseAXSTickets` produces from the sample dataset. -/
def sampleTicket : Ticket :=
  { «section» := "A", row := "1", seats := "10,11,12", quantity := 3,
    face_price := 3/2, taxed_cost := 43/100, cost := 393/100,
    isDynamicPricing := false, connection_fee := 2 }

theorem ticket_quantity_bounds_witness :
    2 ≤ sampleTicket.quantity ∧ sampleTicket.quantity ≤ 4
      ∧ commaSepCount sampleTicket.seats = sampleTicket.quantity :=
  ticket_quantity_bounds sampleResults sampleTicket (by with_unfolding_all decide)

/-- C8: within one section-row the engine picks exactly one price level
before grouping — one actually present with price data, with the most
matching seats, ties broken by the lower mean computed display price — and
the seat grouper then runs only over the selected price level's seats. -/
theorem price_level_selection (plMap : List (String × PriceLevelData)) (g : RowGroup)
    (byLevel : List (String × List SeatInfo)) (bestId : String) (maxSeats : Nat)
    (lowestPrice : ℚ)
    (hsel : selectBestLevel plMap g byLevel = some (bestId, maxSeats, lowestPrice)) :
    ((∃ p ∈ byLevel, p.1 = bestId ∧ ∃ pld, objGet plMap p.1 = some pld
        ∧ p.2.length = maxSeats ∧ averagePriceOf pld g p.2 = lowestPrice)
      ∧ ∀ p ∈ byLevel, ∀ pld, objGet plMap p.1 = some pld →
          p.2.length ≤ maxSeats
          ∧ (p.2.length = maxSeats → lowestPrice ≤ averagePriceOf pld g p.2))
    ∧ (∀ sections t, processSectionRow sections plMap g = some t →
        ∃ bId n avg selSeats,
          selectBestLevel plMap g (seatsByPriceLevelOf g.seats) = some (bId, n, avg)
          ∧ objGet (seatsByPriceLevelOf g.seats) bId = some selSeats
          ∧ (∃ pld, objGet plMap bId = some pld)
          ∧ t.quantity = (findBestGroup (fun s => s.number) (sortSeats selSeats)).length
          ∧ t.seats = jsJoin ","
              ((findBestGroup (fun s => s.number) (sortSeats selSeats)).map
                fun s => toString s.number)) := by
  constructor
  · obtain ⟨hopt, hach, _⟩ :=
      selectBestLevel_foldl plMap g byLevel none bestId maxSeats lowestPrice hsel
    rcases hach with hach | habs
    · exact ⟨hach, hopt⟩
    · exact Option.noConfusion habs
  · intro sections t hrow
    obtain ⟨bid, ms, lp, sel, pld, fs, hsel', hget1, hget2, hhead, hlen, hsec, hrowl,
      hseats, hquant, hface, htaxed, hconn, hcost, hdyn⟩ :=
      processSectionRow_inv _ _ _ _ hrow
    exact ⟨bid, ms, lp, sel, hsel', hget1, ⟨pld, hget2⟩, hquant, hseats⟩

/-- The section-row group that the first pass collects from the sample
dataset. -/
def sampleRow : RowGroup :=
  { sectionLabel := "A", sectionID := "S1", rowLabel := "1", rowID := "R1",
    seats := [⟨10, 10, "s10", "O1", "PL1"⟩, ⟨11, 11, "s11", "O1", "PL1"⟩,
              ⟨12, 12, "s12", "O1", "PL1"⟩] }

theorem price_level_selection_witness :
    ∃ p ∈ seatsByPriceLevelOf sampleRow.seats, p.1 = "PL1"
      ∧ ∃ pld, objGet (buildPriceLevelsMap samplePrice) p.1 = some pld
          ∧ p.2.length = 3 ∧ averagePriceOf pld sampleRow p.2 = 193/100 :=
  (price_level_selection (buildPriceLevelsMap samplePrice) sampleRow
    (seatsByPriceLevelOf sampleRow.seats) "PL1" 3 (193/100)
    (by with_unfolding_all decide)).1.1

/-- C10: every ticket's reported cost is exactly its face price plus taxed
cost plus the per-section connection fee, each already rounded to two
decimals; the connection fee is read from the captured sections dataset
entry for the ticket's section label and defaults to 0 when absent. -/
theorem ticket_cost_connection_fee (axsResults : AxsResults) (t : Ticket)
    (h : t ∈ parseAXSTickets axsResults) :
    t.cost = t.face_price + t.taxed_cost + t.connection_fee
    ∧ t.connection_fee = round2 (connectionFeeOf axsResults.sections t.«section» / 100)
    ∧ (∃ k : ℤ, t.face_price = (k : ℚ) / 100)
    ∧ (∃ k : ℤ, t.taxed_cost = (k : ℚ) / 100)
    ∧ (∃ k : ℤ, t.connection_fee = (k : ℚ) / 100) := by
  obtain ⟨offerSearch, hos, p, hp, hrow⟩ := mem_parseAXSTickets axsResults t h
  obtain ⟨bid, ms, lp, sel, pld, fs, hsel, hget1, hget2, hhead, hlen, hsec, hrowl,
    hseats, hquant, hface, htaxed, hconn, hcost, hdyn⟩ :=
    processSectionRow_inv _ _ _ _ hrow
  obtain ⟨kf, hkf⟩ := round2_hundredth (((calculateSeatPricing pld p.2.sectionID p.2.rowID
    fs.seatId).basePrice + (calculateSeatPricing pld p.2.sectionID p.2.rowID
    fs.seatId).facilityFee) / 100)
  obtain ⟨kt, hkt⟩ := round2_hundredth (((calculateSeatPricing pld p.2.sectionID p.2.rowID
    fs.seatId).totalFees + (calculateSeatPricing pld p.2.sectionID p.2.rowID
    fs.seatId).totalTax) / 100)
  obtain ⟨kc, hkc⟩ := round2_hundredth (connectionFeeOf axsResults.sections
    p.2.sectionLabel / 100)
  have hf : t.face_price = (kf : ℚ) / 100 := by rw [hface, hkf]
  have ht : t.taxed_cost = (kt : ℚ) / 100 := by rw [htaxed, hkt]
  have hc : t.connection_fee = (kc : ℚ) / 100 := by rw [hconn, hkc]
  refine ⟨?_, ?_, ⟨kf, hf⟩, ⟨kt, ht⟩, ⟨kc, hc⟩⟩
  · rw [hcost, hf, ht, hc]
    have hsum : (kf : ℚ) / 100 + (kt : ℚ) / 100 + (kc : ℚ) / 100
        = ((kf + kt + kc : ℤ) : ℚ) / 100 := by
      push_cast
      ring
    rw [hsum, round2_of_hundredth]
  · rw [hconn, hsec]

theorem ticket_cost_connection_fee_witness :
    sampleTicket.cost
        = sampleTicket.face_price + sampleTicket.taxed_cost + sampleTicket.connection_fee
      ∧ sampleTicket.connection_fee
          = round2 (connectionFeeOf sampleResults.sections sampleTicket.«section» / 100)
      ∧ (∃ k : ℤ, sampleTicket.face_price = (k : ℚ) / 100)
      ∧ (∃ k : ℤ, sampleTicket.taxed_cost = (k : ℚ) / 100)
      ∧ (∃ k : ℤ, sampleTicket.connection_fee = (k : ℚ) / 100) :=
  ticket_cost_connection_fee sampleResults sampleTicket (by with_unfolding_all decide)
